import Mathlib

/-!
# bym-launcher: the version patcher (`patcher.go`)

A shallow embedding of `patcher.go` and of the Go standard-library functions it
calls (`strings.Contains`, `strconv.Atoi`, `strconv.Itoa`, `filepath.Join`, and the
`os` file primitives), followed by theorems about the sync procedure.

Go strings are byte sequences.  They are embedded as Lean strings; every test the
program makes looks for ASCII bytes only (`local`, `/`, `.`, digits, signs), so for
UTF-8 text the byte-level and the character-level tests agree.  `len(s)` is the
byte length, embedded as `String.utf8ByteSize`.  Go `int` is the 64-bit integer.

A Go function returning `(value, error)` is embedded as a function returning the value
together with an optional error.  Console output (`fmt.Println`, `fmt.Printf`) is not
part of the model.
-/

namespace Patcher

/-! ## `strings.Contains` -/

/-- Go `strings.HasPrefix(s, prefix)` on character lists. -/
def hasPrefix : List Char → List Char → Bool
  | _, [] => true
  | [], _ :: _ => false
  | c :: s, d :: p => c == d && hasPrefix s p

/-- Go `strings.Index(s, substr) >= 0` on character lists: some suffix of `s`
starts with `substr`. -/
def containsList : List Char → List Char → Bool
  | [], sub => hasPrefix [] sub
  | c :: s, sub => hasPrefix (c :: s) sub || containsList s sub

/-- Go `strings.Contains(s, substr)`. -/
def stringsContains (s substr : String) : Bool :=
  containsList s.data substr.data

/-! ## `path/filepath` (Unix separator) -/

/-- The inner loop of the `..` case of `Clean`:
`for out.w > dotdot && out.index(out.w) != '/' { out.w-- }`, started at `w`. -/
def backtrackLoop (buf : List Char) (dotdot : Nat) : Nat → Nat
  | 0 => 0
  | w + 1 =>
    if w + 1 > dotdot && buf.getD (w + 1) '/' != '/' then backtrackLoop buf dotdot w
    else w + 1

/-- The main loop of Go `filepath.Clean`: `rest` is `path[r:]`, `out` the bytes
written so far (`out.w = out.length`), `dotdot` the index where `..` must stop. -/
def cleanLoop (rooted : Bool) : Nat → List Char → List Char → Nat → List Char
  | 0, _, out, _ => out
  | _, [], out, _ => out
  | fuel + 1, c :: t, out, dotdot =>
    if c == '/' then
      -- empty path element
      cleanLoop rooted fuel t out dotdot
    else if c == '.' && (t.isEmpty || t.head? == some '/') then
      -- . element
      cleanLoop rooted fuel t out dotdot
    else if c == '.' && t.head? == some '.' && (t.tail.isEmpty || t.tail.head? == some '/') then
      -- .. element: remove to last /
      if out.length > dotdot then
        cleanLoop rooted fuel t.tail (out.take (backtrackLoop out dotdot (out.length - 1))) dotdot
      else if !rooted then
        let out1 := (if out.length > 0 then out ++ ['/'] else out) ++ ['.', '.']
        cleanLoop rooted fuel t.tail out1 out1.length
      else
        cleanLoop rooted fuel t.tail out dotdot
    else
      -- real path element: add slash if needed, copy element
      let out1 :=
        if (rooted && out.length != 1) || (!rooted && out.length != 0) then out ++ ['/'] else out
      cleanLoop rooted fuel ((c :: t).dropWhile (fun x => x != '/'))
        (out1 ++ (c :: t).takeWhile (fun x => x != '/')) dotdot

/-- Go `filepath.Clean` on character lists. -/
def cleanList (path : List Char) : List Char :=
  match path with
  | [] => ['.']
  | c :: t =>
    let rooted := c == '/'
    let out :=
      if rooted then cleanLoop true (path.length + 1) t ['/'] 1
      else cleanLoop false (path.length + 1) path [] 0
    if out.isEmpty then ['.'] else out

/-- Go `filepath.Clean`. -/
def filepathClean (path : String) : String := String.mk (cleanList path.data)

/-- Go `filepath.Join(a, b)`: the non-empty elements joined by the separator, cleaned;
the empty string when both are empty. -/
def filepathJoin (a b : String) : String :=
  if a != "" then filepathClean (a ++ "/" ++ b)
  else if b != "" then filepathClean b
  else ""

/-- Go `filepath.IsAbs` (Unix). -/
def filepathIsAbs (path : String) : Bool := path.data.head? == some '/'

/-! ## `strconv` -/

/-- The two error values of `strconv`: `ErrSyntax` and `ErrRange`. -/
inductive NumError
  | invalid
  | range
deriving DecidableEq, Repr

/-- Whether byte `c` is an ASCII decimal digit. -/
def isDigit (c : Char) : Bool := decide (48 ≤ c.toNat) && decide (c.toNat ≤ 57)

/-- The value `c - '0'` of a digit byte. -/
def digitVal (c : Char) : Nat := c.toNat - 48

/-- Conversion to `int64` with two's-complement wrap-around. -/
def wrapInt64 (x : Int) : Int := (x + 2 ^ 63) % 2 ^ 64 - 2 ^ 63

/-- The fast-path loop of `strconv.Atoi`: `none` is the syntax error. -/
def atoiFastLoop : List Char → Nat → Option Nat
  | [], n => some n
  | ch :: s, n => if isDigit ch then atoiFastLoop s (n * 10 + digitVal ch) else none

/-- The digit loop of `strconv.ParseUint(s, 10, 64)`; `cutoff = maxUint64/10 + 1` and
`maxVal = 1<<64 - 1`.  Every byte that is not a decimal digit is a syntax error
(letters are digits `>= base`); the sums are taken modulo `2^64` as in `uint64`. -/
def parseUintLoop : List Char → Nat → Nat × Option NumError
  | [], n => (n, none)
  | c :: s, n =>
    if isDigit c then
      if n ≥ (2 ^ 64 - 1) / 10 + 1 then (2 ^ 64 - 1, some .range)
      else
        let n10 := (n * 10) % 2 ^ 64
        let n1 := (n10 + digitVal c) % 2 ^ 64
        if n1 < n10 ∨ n1 > 2 ^ 64 - 1 then (2 ^ 64 - 1, some .range)
        else parseUintLoop s n1
    else (0, some .invalid)

/-- Go `strconv.ParseUint(s, 10, 0)` on a 64-bit platform. -/
def parseUint (s : List Char) : Nat × Option NumError :=
  if s.isEmpty then (0, some .invalid) else parseUintLoop s 0

/-- Go `strconv.ParseInt(s, 10, 0)` on a 64-bit platform. -/
def parseInt (s : List Char) : Int × Option NumError :=
  match s with
  | [] => (0, some .invalid)
  | c :: t =>
    let neg := c == '-'
    let s1 := if c == '+' || c == '-' then t else c :: t
    let (un, err) := parseUint s1
    if err == some .invalid then (0, err)
    else if !neg && un ≥ 2 ^ 63 then (2 ^ 63 - 1, some .range)
    else if neg && un > 2 ^ 63 then (-(2 ^ 63), some .range)
    else
      let n := wrapInt64 un
      (if neg then wrapInt64 (-n) else n, none)

/-- Go `strconv.Atoi` on a 64-bit platform: the value and the error returned. -/
def strconvAtoi (s : String) : Int × Option NumError :=
  let sLen := s.utf8ByteSize
  if 0 < sLen ∧ sLen < 19 then
    match s.data with
    | [] => (0, some .invalid)
    | c :: t =>
      let s1 := if c == '-' || c == '+' then t else c :: t
      if s1.isEmpty then (0, some .invalid)
      else
        match atoiFastLoop s1 0 with
        | none => (0, some .invalid)
        | some n => (if c == '-' then -(n : Int) else (n : Int), none)
  else
    parseInt s.data

/-- The decimal digit byte of `d < 10`. -/
def digitChar (d : Nat) : Char := Char.ofNat (48 + d)

/-- The decimal digits of `n`, most significant first (`fuel` bounds the recursion). -/
def utoa : Nat → Nat → List Char
  | 0, _ => []
  | fuel + 1, n => if n < 10 then [digitChar n] else utoa fuel (n / 10) ++ [digitChar (n % 10)]

/-- Go `strconv.Itoa`: the base-10 representation, with a leading `-` when negative. -/
def strconvItoa (i : Int) : String :=
  String.mk (if i < 0 then '-' :: utoa (i.natAbs + 1) i.natAbs else utoa (i.natAbs + 1) i.natAbs)

/-! ## The file system and the `os` primitives

The state of the file system maps a path to what is stored there.  Whether a system
call fails for a reason outside this state (permissions, disk, network) is decided
by an environment record given to each call.  The trace records, in order, the
writing system calls made and the invocations of the downloader. -/

/-- What a path holds. -/
inductive Node
  | dir
  | file (content : String)
deriving DecidableEq, Repr

/-- The file system: the node at each path, if any. -/
abbrev FS := String → Option Node

/-- An observable step: a directory made, a file created or truncated, bytes written
to a file, or `downloadLatestBuild` called with `url` and `fileName`. -/
inductive Event
  | mkdir (path : String)
  | create (path : String)
  | write (path : String)
  | call (url fileName : String)
deriving DecidableEq, Repr

/-- The file system together with the trace of steps so far. -/
structure World where
  fs : FS
  trace : List Event

/-- The file system with `node` stored at `path`. -/
def FS.set (fs : FS) (path : String) (node : Node) : FS :=
  fun q => if q = path then some node else fs q

/-- The world after storing `node` at `path` and recording `ev`. -/
def World.put (w : World) (path : String) (node : Node) (ev : Event) : World :=
  { fs := w.fs.set path node, trace := w.trace ++ [ev] }

/-- The error of `os.Stat`: none, one for which `os.IsNotExist` holds, or another. -/
inductive StatResult
  | ok
  | notExist
  | otherError
deriving DecidableEq, Repr

/-- Go `os.Stat(path)`, its error only. -/
def osStat (fault : Bool) (path : String) (w : World) : StatResult :=
  if fault then .otherError
  else if (w.fs path).isSome then .ok else .notExist

/-- Go `os.Mkdir(path, perm)`: the world after and whether it failed. -/
def osMkdir (fault : Bool) (path : String) (w : World) : World × Bool :=
  if fault || (w.fs path).isSome then (w, true)
  else (w.put path .dir (.mkdir path), false)

/-- Go `os.MkdirAll(path, perm)` for a path of one element: nothing to do when the
directory exists, an error when a file is in the way. -/
def osMkdirAll (fault : Bool) (path : String) (w : World) : World × Bool :=
  if fault then (w, true)
  else
    match w.fs path with
    | some .dir => (w, false)
    | some (.file _) => (w, true)
    | none => (w.put path .dir (.mkdir path), false)

/-- Go `os.Create(path)`: creates the file or truncates it; fails on a directory. -/
def osCreate (fault : Bool) (path : String) (w : World) : World × Bool :=
  if fault then (w, true)
  else
    match w.fs path with
    | some .dir => (w, true)
    | _ => (w.put path (.file "") (.create path), false)

/-- Writing `data` through the open handle of the file at `path` (`file.WriteString`,
`file.Write`, `io.Copy`): the bytes are appended; with fault `some k` the write fails
after `k` bytes. -/
def fileWrite (fault : Option Nat) (path : String) (data : String) (w : World) : World × Bool :=
  match w.fs path with
  | some (.file c) =>
    match fault with
    | none => (w.put path (.file (c ++ data)) (.write path), false)
    | some k => (w.put path (.file (c ++ String.mk (data.data.take k))) (.write path), true)
  | _ => (w, true)

/-- Go `os.ReadFile(path)`: the content, or `none` on error. -/
def osReadFile (fault : Bool) (path : String) (w : World) : Option String :=
  if fault then none
  else
    match w.fs path with
    | some (.file c) => some c
    | _ => none

/-- The faults of one `os.WriteFile` call. -/
structure WriteFileEnv where
  openErr : Bool
  writeErr : Option Nat
  closeErr : Bool

/-- Go `os.WriteFile(path, data, perm)`: open with create and truncate, write, close;
the error of the write, else that of the close. -/
def osWriteFile (env : WriteFileEnv) (path : String) (data : String) (w : World) : World × Bool :=
  let (w1, e1) := osCreate env.openErr path w
  if e1 then (w1, true)
  else
    let (w2, e2) := fileWrite env.writeErr path data w1
    (w2, e2 || env.closeErr)

/-- Go `filepath.Abs(path)` (Unix); `cwd` is the result of `os.Getwd`. -/
def filepathAbs (cwd : Option String) (path : String) : String × Bool :=
  if filepathIsAbs path then (filepathClean path, false)
  else
    match cwd with
    | none => ("", true)
    | some wd => (filepathJoin wd path, false)

/-! ## `patcher.go` -/

/-- The constant `buildFolder`. -/
def buildFolder : String := "bymr"

/-- The struct `Assets`. -/
structure Assets where
  Url : String
  Name : String
deriving DecidableEq, Repr

/-- The struct `latestBuild`. -/
structure latestBuild where
  ID : Int
  Assets : List Assets
deriving DecidableEq, Repr

/-- The errors the functions of `patcher.go` return, one per message. -/
inductive Error
  | fetchStatus (status : String)
  | jsonDecode
  | createFolder
  | createVersionFile
  | writeVersionFile
  | readVersionFile
  | parseVersion (e : NumError)
  | downloadBuild
  | createFile
  | writeFile
  | absPath
deriving DecidableEq, Repr

/-- The response of the release endpoint: whether the status is 200, the status text,
the value `Decode` leaves in `latest`, and whether `Decode` failed. -/
structure Response where
  statusOK : Bool
  status : String
  decoded : latestBuild
  decodeErr : Bool

/-- The function `getLatestBuild`; `resp = none` is the transport failure, on which
`log.Fatalln` ends the process and nothing is returned (`none`). -/
def getLatestBuild (resp : Option Response) : Option (latestBuild × Option Error) :=
  match resp with
  | none => none
  | some r =>
    if !r.statusOK then some ({ ID := 0, Assets := [] }, some (.fetchStatus r.status))
    else if r.decodeErr then some (r.decoded, some .jsonDecode)
    else some (r.decoded, none)

/-- The faults of the system calls of `createBuildFolderAndVersionFile`. -/
structure ReadEnv where
  statFolderErr : Bool
  mkdirErr : Bool
  statVersionErr : Bool
  createErr : Bool
  writeErr : Option Nat
  readErr : Bool

/-- The function `fileExists`. -/
def fileExists (fault : Bool) (filePath : String) (w : World) : Bool :=
  osStat fault filePath w != .notExist

/-- The function `createBuildFolderAndVersionFile`: the world after, the version and
the error returned. -/
def createBuildFolderAndVersionFile (env : ReadEnv) (w : World) : World × Int × Option Error :=
  let (w1, e1) :=
    if osStat env.statFolderErr buildFolder w = .notExist then osMkdir env.mkdirErr buildFolder w
    else (w, false)
  if e1 then (w1, 0, some .createFolder)
  else
    let versionFilePath := filepathJoin buildFolder "version.txt"
    let (w2, e2) :=
      if !fileExists env.statVersionErr versionFilePath w1 then
        let (wc, ec) := osCreate env.createErr versionFilePath w1
        if ec then (wc, some Error.createVersionFile)
        else
          let (ww, ew) := fileWrite env.writeErr versionFilePath "0" wc
          if ew then (ww, some Error.writeVersionFile) else (ww, none)
      else (w1, none)
    match e2 with
    | some e => (w2, 0, some e)
    | none =>
      match osReadFile env.readErr versionFilePath w2 with
      | none => (w2, 0, some .readVersionFile)
      | some content =>
        match strconvAtoi content with
        | (_, some e) => (w2, 0, some (.parseVersion e))
        | (version, none) => (w2, version, none)

/-- The faults of one call of `downloadLatestBuild`: `response` is the body that
`http.Get` delivers (`none` on a transport error). -/
structure DownloadEnv where
  mkdirAllErr : Bool
  response : Option String
  createErr : Bool
  copyErr : Option Nat
  cwd : Option String

/-- The function `downloadLatestBuild`: the world after, the path and the error returned. -/
def downloadLatestBuild (env : DownloadEnv) (url fileName : String) (w : World) :
    World × String × Option Error :=
  let w0 : World := { w with trace := w.trace ++ [.call url fileName] }
  let (w1, e1) := osMkdirAll env.mkdirAllErr buildFolder w0
  if e1 then (w1, "", some .createFolder)
  else
    let filePath := filepathJoin buildFolder fileName
    match env.response with
    | none => (w1, "", some .downloadBuild)
    | some body =>
      let (w2, e2) := osCreate env.createErr filePath w1
      if e2 then (w2, "", some .createFile)
      else
        let (w3, e3) := fileWrite env.copyErr filePath body w2
        if e3 then (w3, "", some .writeFile)
        else
          let (p, e4) := filepathAbs env.cwd filePath
          (w3, p, if e4 then some .absPath else none)

/-- The destination name chosen in the loop of `patcher` (lines 137 to 145). -/
def destName (name : String) : String :=
  if stringsContains name "local" then "bymr-local.swf"
  else if stringsContains name "http" then "bymr-http.swf"
  else if stringsContains name "stable" then "bymr-stable.swf"
  else name

/-- The `for` loop of `patcher` over the assets; `envs i` holds the faults of the
download of the asset at index `i`.  A failed download is reported and skipped. -/
def downloadAssets (envs : Nat → DownloadEnv) : Nat → List Assets → World → World
  | _, [], w => w
  | i, asset :: rest, w =>
    let name := destName asset.Name
    let (w1, _, _) := downloadLatestBuild (envs i) asset.Url name w
    downloadAssets envs (i + 1) rest w1

/-- The environment of one run of `patcher`. -/
structure Env where
  fetch : Option Response
  read : ReadEnv
  download : Nat → DownloadEnv
  writeVersion : WriteFileEnv

/-- The function `patcher`: the world after, the release and the error returned;
`none` when the process was ended inside `getLatestBuild`. -/
def patcher (env : Env) (w : World) : Option (World × latestBuild × Option Error) :=
  match getLatestBuild env.fetch with
  | none => none
  | some (lVersion, some err) => some (w, lVersion, some err)
  | some (lVersion, none) =>
    let (w1, cVersion, _) := createBuildFolderAndVersionFile env.read w
    if cVersion ≠ lVersion.ID then
      let w2 := downloadAssets env.download 0 lVersion.Assets w1
      let versionFilePath := filepathJoin buildFolder "version.txt"
      let (w3, _) := osWriteFile env.writeVersion versionFilePath (strconvItoa lVersion.ID) w2
      some (w3, lVersion, none)
    else some (w1, lVersion, none)

/-! ## Definitions used to state the theorems -/

/-- The path of the version file, as both functions compute it. -/
def versionPath : String := filepathJoin buildFolder "version.txt"

/-- The arguments of a downloader invocation recorded in the trace. -/
def Event.callArgs : Event → Option (String × String)
  | .call url fileName => some (url, fileName)
  | _ => none

/-- The downloader invocations of a trace, in order: (url, destination name). -/
def calls (t : List Event) : List (String × String) := t.filterMap Event.callArgs

/-- The spec's notion of a decimal integer: an optional sign followed by one or more
ASCII digits and nothing else. -/
def isDecimalInteger (s : String) : Bool :=
  match s.data with
  | [] => false
  | c :: t =>
    let ds := if c == '+' || c == '-' then t else c :: t
    !ds.isEmpty && ds.all isDigit

/-- Lines 48 to 54 of `createBuildFolderAndVersionFile`: the folder is made when absent. -/
def folderStage (env : ReadEnv) (w : World) : World × Bool :=
  if osStat env.statFolderErr buildFolder w = .notExist then osMkdir env.mkdirErr buildFolder w
  else (w, false)

/-- Lines 58 to 71 of `createBuildFolderAndVersionFile`: the version file is created
with content `0` when absent. -/
def versionFileStage (env : ReadEnv) (w1 : World) : World × Option Error :=
  if !fileExists env.statVersionErr versionPath w1 then
    if (osCreate env.createErr versionPath w1).2 then
      ((osCreate env.createErr versionPath w1).1, some .createVersionFile)
    else if (fileWrite env.writeErr versionPath "0" (osCreate env.createErr versionPath w1).1).2 then
      ((fileWrite env.writeErr versionPath "0" (osCreate env.createErr versionPath w1).1).1,
        some .writeVersionFile)
    else
      ((fileWrite env.writeErr versionPath "0" (osCreate env.createErr versionPath w1).1).1, none)
  else (w1, none)

/-- Lines 78 to 83 of `createBuildFolderAndVersionFile`: the content is parsed. -/
def parseContent (content : String) : Int × Option Error :=
  match strconvAtoi content with
  | (_, some e) => (0, some (.parseVersion e))
  | (version, none) => (version, none)

/-- Lines 73 to 83 of `createBuildFolderAndVersionFile`: the file is read and parsed. -/
def parseStage (env : ReadEnv) (w2 : World) : Int × Option Error :=
  match osReadFile env.readErr versionPath w2 with
  | none => (0, some .readVersionFile)
  | some content => parseContent content

/-- What a world that `createBuildFolderAndVersionFile` can leave looks like, seen from
the world `w` it started in: at most the folder was made and, only if the version file
was absent, the version file was created and written once; every other path is
untouched, an existing version file keeps its content, and a version file that was
absent is still absent or holds the default content `0` or, after a failed write, a
shorter beginning of it. -/
def ReadOutcome (w w2 : World) : Prop :=
  ∃ evs, w2.trace = w.trace ++ evs ∧
    (evs = [] ∨ evs = [Event.mkdir buildFolder] ∨
      (w.fs versionPath = none ∧
        (evs = [Event.create versionPath, Event.write versionPath] ∨
          evs = [Event.mkdir buildFolder, Event.create versionPath,
            Event.write versionPath]))) ∧
    (∀ q, q ≠ buildFolder → q ≠ versionPath → w2.fs q = w.fs q) ∧
    ((w.fs versionPath).isSome = true → w2.fs versionPath = w.fs versionPath) ∧
    (w.fs versionPath = none →
      w2.fs versionPath = none ∨ w2.fs versionPath = some (.file "") ∨
        w2.fs versionPath = some (.file "0"))

/-! ## Concrete environments and states -/

/-- No fault while reading the version. -/
def okRead : ReadEnv := ⟨false, false, false, false, none, false⟩

/-- A download without fault that delivers `body`. -/
def okDownload (body : String) : DownloadEnv := ⟨false, some body, false, none, some "/home/u"⟩

/-- A download whose `http.Get` fails. -/
def failedDownload : DownloadEnv := ⟨false, none, false, none, some "/home/u"⟩

/-- No fault while writing the version file. -/
def okWrite : WriteFileEnv := ⟨false, none, false⟩

/-- A run in which the endpoint answers 200 with release `l` and nothing fails. -/
def okEnv (l : latestBuild) : Env :=
  ⟨some ⟨true, "200 OK", l, false⟩, okRead, fun _ => okDownload "SWF", okWrite⟩

/-- A run in which the endpoint answers 200 with release `l` and every download fails. -/
def offlineEnv (l : latestBuild) : Env :=
  ⟨some ⟨true, "200 OK", l, false⟩, okRead, fun _ => failedDownload, okWrite⟩

/-- A run in which the endpoint answers 404. -/
def notFoundEnv : Env :=
  ⟨some ⟨false, "404 Not Found", ⟨7, []⟩, false⟩, okRead, fun _ => okDownload "SWF", okWrite⟩

/-- The empty working directory. -/
def fsEmpty : FS := fun _ => none

/-- The build folder holding a version file of the given content. -/
def fsVersion (content : String) : FS := fun p =>
  if p = "bymr" then some .dir
  else if p = "bymr/version.txt" then some (.file content)
  else none

/-- The release of the spec's scenario: id 42 with one asset. -/
def rel42 : latestBuild := ⟨42, [⟨"http://x/a", "bymr-stable-v2.swf"⟩]⟩

/-- A release with id 7 and one asset. -/
def rel7asset : latestBuild := ⟨7, [⟨"http://x/a", "bymr-stable-v2.swf"⟩]⟩

/-- A release with id 0 and one asset. -/
def rel0 : latestBuild := ⟨0, [⟨"http://x/a", "bymr-stable-v2.swf"⟩]⟩

/-- A release whose asset name leads out of the build folder. -/
def relDotDot : latestBuild := ⟨42, [⟨"http://x/a", "../evil.swf"⟩]⟩

/-! ## Substring test -/

theorem hasPrefix_iff (s p : List Char) : hasPrefix s p = true ↔ p <+: s := by
  induction p generalizing s with
  | nil => simp [hasPrefix]
  | cons d p ih =>
    cases s with
    | nil => simp [hasPrefix]
    | cons c s =>
      simp only [hasPrefix, Bool.and_eq_true, beq_iff_eq, ih, List.cons_prefix_cons]
      constructor
      · rintro ⟨h, h2⟩; exact ⟨h.symm, h2⟩
      · rintro ⟨h, h2⟩; exact ⟨h.symm, h2⟩

theorem containsList_iff (s sub : List Char) : containsList s sub = true ↔ sub <:+: s := by
  induction s with
  | nil =>
    simp only [containsList, hasPrefix_iff, List.prefix_nil, List.infix_nil]
  | cons c s ih =>
    simp only [containsList, Bool.or_eq_true, hasPrefix_iff, ih, List.infix_cons_iff]

theorem stringsContains_iff (s sub : String) :
    stringsContains s sub = true ↔ sub.data <:+: s.data := by
  unfold stringsContains
  exact containsList_iff _ _

/-- C2: the destination name is decided by case-sensitive substring tests, the first
match winning: `bymr-local.swf` if the asset name contains `local`, else `bymr-http.swf`
if it contains `http`, else `bymr-stable.swf` if it contains `stable`, else the asset
name itself; `build-local-stable.swf` goes to `bymr-local.swf`, `build-debug.swf` and
the upper-case `build-LOCAL.swf` keep their names. -/
theorem destName_first_match_wins :
    (∀ name : String, destName name =
      if "local".data <:+: name.data then "bymr-local.swf"
      else if "http".data <:+: name.data then "bymr-http.swf"
      else if "stable".data <:+: name.data then "bymr-stable.swf"
      else name) ∧
    destName "build-local-stable.swf" = "bymr-local.swf" ∧
    destName "build-http-stable.swf" = "bymr-http.swf" ∧
    destName "bymr-stable-v2.swf" = "bymr-stable.swf" ∧
    destName "build-debug.swf" = "build-debug.swf" ∧
    destName "build-LOCAL.swf" = "build-LOCAL.swf" := by
  refine ⟨?_, by decide, by decide, by decide, by decide, by decide⟩
  intro name
  unfold destName
  by_cases h1 : stringsContains name "local" = true
  · rw [if_pos h1, if_pos ((stringsContains_iff _ _).1 h1)]
  · rw [if_neg h1, if_neg (fun h => h1 ((stringsContains_iff _ _).2 h))]
    by_cases h2 : stringsContains name "http" = true
    · rw [if_pos h2, if_pos ((stringsContains_iff _ _).1 h2)]
    · rw [if_neg h2, if_neg (fun h => h2 ((stringsContains_iff _ _).2 h))]
      by_cases h3 : stringsContains name "stable" = true
      · rw [if_pos h3, if_pos ((stringsContains_iff _ _).1 h3)]
      · rw [if_neg h3, if_neg (fun h => h3 ((stringsContains_iff _ _).2 h))]

/-! ## The fuel of `cleanLoop` -/

theorem dropWhile_length_le (p : Char → Bool) (l : List Char) :
    (l.dropWhile p).length ≤ l.length := by
  induction l with
  | nil => simp
  | cons a t ih =>
    simp only [List.dropWhile_cons]
    split
    · simp only [List.length_cons]; omega
    · exact Nat.le_refl _

/-- One unit of fuel more than the bytes left to read is enough: more fuel does not
change the result of the loop of `Clean`. -/
theorem cleanLoop_fuel (rooted : Bool) (fuel : Nat) :
    ∀ (rest out : List Char) (dotdot : Nat), rest.length < fuel →
      cleanLoop rooted (fuel + 1) rest out dotdot = cleanLoop rooted fuel rest out dotdot := by
  induction fuel with
  | zero => intro rest out dotdot h; omega
  | succ f ih =>
    intro rest out dotdot h
    cases rest with
    | nil => simp [cleanLoop]
    | cons c t =>
      have ht : t.length < f := by simp only [List.length_cons] at h; omega
      have htt : t.tail.length < f := by simp only [List.length_tail]; omega
      rw [cleanLoop, cleanLoop]
      by_cases h1 : (c == '/') = true
      · rw [if_pos h1, if_pos h1]
        exact ih _ _ _ ht
      · rw [if_neg h1, if_neg h1]
        have hd : ((c :: t).dropWhile (fun x => x != '/')).length < f := by
          have hc : (c != '/') = true := by simpa using h1
          simp only [List.dropWhile_cons, hc, if_true]
          exact Nat.lt_of_le_of_lt (dropWhile_length_le _ t) ht
        split_ifs <;>
          first
            | exact ih _ _ _ ht
            | exact ih _ _ _ htt
            | exact ih _ _ _ hd

/-! ## Decimal conversion -/

theorem digitChar_toNat (d : Nat) (h : d < 10) : (digitChar d).toNat = 48 + d := by
  interval_cases d <;> rfl

theorem isDigit_digitChar (d : Nat) (h : d < 10) : isDigit (digitChar d) = true := by
  simp only [isDigit, digitChar_toNat d h, Bool.and_eq_true, decide_eq_true_eq]
  omega

theorem digitVal_digitChar (d : Nat) (h : d < 10) : digitVal (digitChar d) = d := by
  simp only [digitVal, digitChar_toNat d h]
  omega

theorem atoiFastLoop_append (xs : List Char) (c : Char) (n m : Nat)
    (h : atoiFastLoop xs n = some m) :
    atoiFastLoop (xs ++ [c]) n = atoiFastLoop [c] m := by
  induction xs generalizing n with
  | nil =>
    simp only [atoiFastLoop, Option.some.injEq] at h
    simp [h]
  | cons x xs ih =>
    simp only [atoiFastLoop, List.cons_append] at h ⊢
    by_cases hx : isDigit x = true
    · rw [if_pos hx] at h ⊢
      exact ih _ h
    · rw [if_neg hx] at h
      exact absurd h (by simp)

theorem atoiFastLoop_utoa (fuel n : Nat) (h : n < fuel) :
    atoiFastLoop (utoa fuel n) 0 = some n := by
  induction fuel generalizing n with
  | zero => omega
  | succ f ih =>
    unfold utoa
    by_cases h10 : n < 10
    · rw [if_pos h10]
      simp [atoiFastLoop, isDigit_digitChar n h10, digitVal_digitChar n h10]
    · rw [if_neg h10]
      have hlt : n / 10 < f := by omega
      rw [atoiFastLoop_append _ _ _ _ (ih _ hlt)]
      have hm : n % 10 < 10 := Nat.mod_lt _ (by decide)
      simp only [atoiFastLoop, isDigit_digitChar _ hm, digitVal_digitChar _ hm, if_true]
      congr 1
      omega

theorem parseUintLoop_append (xs : List Char) (c : Char) (n m : Nat)
    (h : parseUintLoop xs n = (m, none)) :
    parseUintLoop (xs ++ [c]) n = parseUintLoop [c] m := by
  induction xs generalizing n with
  | nil =>
    simp only [parseUintLoop, Prod.mk.injEq, and_true] at h
    simp [h]
  | cons x xs ih =>
    simp only [List.cons_append]
    unfold parseUintLoop at h ⊢
    by_cases hx : isDigit x = true
    · rw [if_pos hx] at h ⊢
      by_cases hc : n ≥ (2 ^ 64 - 1) / 10 + 1
      · rw [if_pos hc] at h
        simp at h
      · rw [if_neg hc] at h ⊢
        simp only at h ⊢
        split at h
        · simp at h
        · rename_i hov
          rw [if_neg hov]
          exact ih _ h
    · rw [if_neg hx] at h
      simp at h

theorem parseUintLoop_utoa (fuel n : Nat) (h : n < fuel) (hmax : n < 2 ^ 64) :
    parseUintLoop (utoa fuel n) 0 = (n, none) := by
  induction fuel generalizing n with
  | zero => omega
  | succ f ih =>
    unfold utoa
    by_cases h10 : n < 10
    · rw [if_pos h10]
      simp only [parseUintLoop, isDigit_digitChar n h10, digitVal_digitChar n h10, if_true]
      rw [if_neg (by omega)]
      simp only [Nat.zero_mul, Nat.zero_mod, Nat.zero_add]
      rw [Nat.mod_eq_of_lt hmax, if_neg (by omega)]
    · rw [if_neg h10]
      have hlt : n / 10 < f := by omega
      rw [parseUintLoop_append _ _ _ _ (ih _ hlt (by omega))]
      have hm : n % 10 < 10 := Nat.mod_lt _ (by decide)
      simp only [parseUintLoop, isDigit_digitChar _ hm, digitVal_digitChar _ hm, if_true]
      rw [if_neg (by omega)]
      have e1 : n / 10 * 10 % 2 ^ 64 = n / 10 * 10 := Nat.mod_eq_of_lt (by omega)
      have e2 : (n / 10 * 10 + n % 10) % 2 ^ 64 = n := by
        rw [Nat.mod_eq_of_lt (by omega)]; omega
      simp only [e1, e2]
      rw [if_neg (by omega)]

theorem utoa_all_digits (fuel n : Nat) : ∀ c ∈ utoa fuel n, isDigit c = true := by
  induction fuel generalizing n with
  | zero => simp [utoa]
  | succ f ih =>
    unfold utoa
    by_cases h10 : n < 10
    · rw [if_pos h10]
      simp [isDigit_digitChar n h10]
    · rw [if_neg h10]
      intro c hc
      rcases List.mem_append.1 hc with h | h
      · exact ih _ c h
      · simp only [List.mem_singleton] at h
        rw [h]
        exact isDigit_digitChar _ (Nat.mod_lt _ (by decide))

theorem utoa_ne_nil (fuel n : Nat) (h : n < fuel) : utoa fuel n ≠ [] := by
  cases fuel with
  | zero => omega
  | succ f =>
    unfold utoa
    by_cases h10 : n < 10
    · rw [if_pos h10]; simp
    · rw [if_neg h10]; simp

/-- Parsing the decimal form of a non-negative `int` gives the number back. -/
theorem strconvAtoi_strconvItoa (N : Int) (h0 : 0 ≤ N) (h1 : N < 2 ^ 63) :
    strconvAtoi (strconvItoa N) = (N, none) := by
  obtain ⟨n, rfl⟩ := Int.eq_ofNat_of_zero_le h0
  have hn : n < 2 ^ 63 := by exact_mod_cast h1
  have hneg : ¬ ((n : Int) < 0) := by omega
  simp only [strconvItoa, if_neg hneg, Int.natAbs_ofNat]
  have hne := utoa_ne_nil (n + 1) n (by omega)
  have hall := utoa_all_digits (n + 1) n
  cases hl : utoa (n + 1) n with
  | nil => exact absurd hl hne
  | cons c t =>
    have hc : isDigit c = true := hall c (by rw [hl]; simp)
    have hminus : (c == '-') = false := by
      rw [beq_eq_false_iff_ne]; rintro rfl; revert hc; decide
    have hplus : (c == '+') = false := by
      rw [beq_eq_false_iff_ne]; rintro rfl; revert hc; decide
    unfold strconvAtoi
    simp only
    split
    · simp only [hminus, hplus, Bool.or_self, Bool.false_eq_true, if_false, List.isEmpty_cons]
      rw [← hl, atoiFastLoop_utoa _ _ (by omega)]
    · simp only [parseInt, hminus, hplus, Bool.or_self, Bool.false_eq_true, if_false, parseUint,
        List.isEmpty_cons]
      rw [← hl, parseUintLoop_utoa _ _ (by omega) (by omega)]
      have hw : wrapInt64 (n : Int) = n := by
        unfold wrapInt64; omega
      simp [hw]
      omega

/-! ## The stages of `createBuildFolderAndVersionFile` -/

theorem versionPath_eq : versionPath = "bymr/version.txt" := by decide

theorem versionPath_ne_buildFolder : versionPath ≠ buildFolder := by decide

theorem createBuildFolderAndVersionFile_eq (env : ReadEnv) (w : World) :
    createBuildFolderAndVersionFile env w =
      if (folderStage env w).2 = true then ((folderStage env w).1, 0, some .createFolder)
      else
        match (versionFileStage env (folderStage env w).1).2 with
        | some e => ((versionFileStage env (folderStage env w).1).1, 0, some e)
        | none =>
          ((versionFileStage env (folderStage env w).1).1,
            parseStage env (versionFileStage env (folderStage env w).1).1) := by
  unfold createBuildFolderAndVersionFile parseStage parseContent
  simp only [← folderStage.eq_1]
  split
  · rfl
  · rw [show filepathJoin buildFolder "version.txt" = versionPath from rfl]
    simp only [← versionFileStage.eq_1]
    split
    · rfl
    · split <;> [rfl; skip]
      split <;> simp_all

theorem folderStage_cases (env : ReadEnv) (w : World) :
    (folderStage env w).1 = w ∨
      (w.fs buildFolder = none ∧ (folderStage env w).2 = false ∧
        (folderStage env w).1 = w.put buildFolder .dir (.mkdir buildFolder)) := by
  unfold folderStage osStat osMkdir
  by_cases h1 : env.statFolderErr = true
  · simp [h1]
  · cases hf : w.fs buildFolder with
    | some n => simp [h1, hf]
    | none =>
      by_cases h2 : env.mkdirErr = true
      · simp [h1, hf, h2]
      · simp [h1, hf, h2]

theorem versionFileStage_cases (env : ReadEnv) (w1 : World) :
    (versionFileStage env w1 = (w1, none) ∧
        (env.statVersionErr = true ∨ (w1.fs versionPath).isSome = true)) ∨
      (w1.fs versionPath = none ∧ env.statVersionErr = false ∧
        (versionFileStage env w1 = (w1, some .createVersionFile) ∨
          ∃ c, (versionFileStage env w1).1 =
              (w1.put versionPath (.file "") (.create versionPath)).put versionPath (.file c)
                (.write versionPath) ∧
            ((versionFileStage env w1).2 = none → c = "0"))) := by
  unfold versionFileStage fileExists osStat
  by_cases h1 : env.statVersionErr = true
  · left; simp [h1]
  · cases hf : w1.fs versionPath with
    | some n => left; simp [h1, hf]
    | none =>
      right
      refine ⟨rfl, by simpa using h1, ?_⟩
      by_cases h2 : env.createErr = true
      · left; simp [h1, hf, h2, osCreate]
      · right
        cases h3 : env.writeErr with
        | none =>
          refine ⟨"0", ?_, fun _ => rfl⟩
          simp [h1, hf, h2, h3, osCreate, fileWrite, World.put, FS.set]
        | some k =>
          refine ⟨String.mk ("0".data.take k), ?_, ?_⟩
          · simp [h1, hf, h2, h3, osCreate, fileWrite, World.put, FS.set]
          · simp [h1, hf, h2, h3, osCreate, fileWrite, World.put, FS.set]

theorem read_world (env : ReadEnv) (w : World) :
    (createBuildFolderAndVersionFile env w).1 = (folderStage env w).1 ∨
      (createBuildFolderAndVersionFile env w).1 =
        (versionFileStage env (folderStage env w).1).1 := by
  rw [createBuildFolderAndVersionFile_eq]
  split
  · left; rfl
  · right
    split <;> rfl

theorem folderStage_outcome (env : ReadEnv) (w : World) :
    ReadOutcome w (folderStage env w).1 ∧
      (folderStage env w).1.fs versionPath = w.fs versionPath := by
  have hne := versionPath_ne_buildFolder
  rcases folderStage_cases env w with h | ⟨_, _, h⟩
  · rw [h]
    exact ⟨⟨[], by simp, Or.inl rfl, fun _ _ _ => rfl, fun _ => rfl, fun h0 => Or.inl h0⟩, rfl⟩
  · rw [h]
    have hv : (w.put buildFolder .dir (.mkdir buildFolder)).fs versionPath = w.fs versionPath := by
      simp [World.put, FS.set, hne]
    refine ⟨⟨[Event.mkdir buildFolder], rfl, Or.inr (Or.inl rfl), ?_, fun _ => hv, ?_⟩, hv⟩
    · intro q hq _
      simp [World.put, FS.set, hq]
    · intro h0
      left
      rw [hv, h0]

theorem take_default_content (k : Nat) :
    String.mk ("0".data.take k) = "" ∨ String.mk ("0".data.take k) = "0" := by
  cases k with
  | zero => left; rfl
  | succ n =>
    right
    show String.mk (List.take (n + 1) ['0']) = String.mk ['0']
    rw [List.take_succ_cons, List.take_nil]

/-- The version-file stage leaves the world as it was, or the file was absent and has
been created and written once, holding `0` or, after a failed write, nothing. -/
theorem versionFileStage_written (env : ReadEnv) (w1 : World) :
    (versionFileStage env w1).1 = w1 ∨
      (w1.fs versionPath = none ∧
        ∃ c, (c = "" ∨ c = "0") ∧
          (versionFileStage env w1).1 =
            (w1.put versionPath (.file "") (.create versionPath)).put versionPath (.file c)
              (.write versionPath)) := by
  unfold versionFileStage fileExists osStat
  by_cases h1 : env.statVersionErr = true
  · left; simp [h1]
  · cases hf : w1.fs versionPath with
    | some n => left; simp [h1, hf]
    | none =>
      by_cases h2 : env.createErr = true
      · left; simp [h1, hf, h2, osCreate]
      · right
        refine ⟨rfl, ?_⟩
        cases h3 : env.writeErr with
        | none =>
          refine ⟨"0", Or.inr rfl, ?_⟩
          simp [h1, hf, h2, h3, osCreate, fileWrite, World.put, FS.set]
        | some k =>
          refine ⟨String.mk ("0".data.take k), take_default_content k, ?_⟩
          simp [h1, hf, h2, h3, osCreate, fileWrite, World.put, FS.set]

theorem written_outcome (w w1 : World) (c : String) (pre : List Event)
    (ht : w1.trace = w.trace ++ pre)
    (hfs : ∀ q, q ≠ buildFolder → q ≠ versionPath → w1.fs q = w.fs q)
    (hw : w.fs versionPath = none) (hc : c = "" ∨ c = "0") :
    let w2 := (w1.put versionPath (.file "") (.create versionPath)).put versionPath (.file c)
      (.write versionPath)
    w2.trace = w.trace ++ (pre ++ [Event.create versionPath, Event.write versionPath]) ∧
      (∀ q, q ≠ buildFolder → q ≠ versionPath → w2.fs q = w.fs q) ∧
      ((w.fs versionPath).isSome = true → w2.fs versionPath = w.fs versionPath) ∧
      (w.fs versionPath = none →
        w2.fs versionPath = none ∨ w2.fs versionPath = some (.file "") ∨
          w2.fs versionPath = some (.file "0")) := by
  refine ⟨?_, ?_, ?_, ?_⟩
  · simp [World.put, ht]
  · intro q hq hq2
    simp only [World.put, FS.set, if_neg hq2]
    exact hfs q hq hq2
  · intro hsome
    rw [hw] at hsome
    simp at hsome
  · intro _
    right
    rcases hc with hc | hc
    · left; simp [World.put, FS.set, hc]
    · right; simp [World.put, FS.set, hc]

theorem read_outcome (env : ReadEnv) (w : World) :
    ReadOutcome w (createBuildFolderAndVersionFile env w).1 := by
  obtain ⟨h1, hv⟩ := folderStage_outcome env w
  rcases read_world env w with h | h
  · rw [h]; exact h1
  · rw [h]
    rcases versionFileStage_written env (folderStage env w).1 with h2 | ⟨hnone, c, hc, h2⟩
    · rw [h2]; exact h1
    · rw [h2]
      have hw : w.fs versionPath = none := by rw [← hv]; exact hnone
      have hne := versionPath_ne_buildFolder
      rcases folderStage_cases env w with h3 | ⟨_, _, h3⟩
      · obtain ⟨e1, e2, e3, e4⟩ := written_outcome w (folderStage env w).1 c []
          (by rw [h3]; simp) (by intro q _ _; rw [h3]) hw hc
        exact ⟨_, e1, Or.inr (Or.inr ⟨hw, Or.inl rfl⟩), e2, e3, e4⟩
      · obtain ⟨e1, e2, e3, e4⟩ := written_outcome w (folderStage env w).1 c
          [Event.mkdir buildFolder] (by rw [h3]; rfl)
          (by intro q hq _; rw [h3]; simp [World.put, FS.set, hq]) hw hc
        exact ⟨_, e1, Or.inr (Or.inr ⟨hw, Or.inr rfl⟩), e2, e3, e4⟩

/-- A version file that was absent and is read without error holds exactly `0`. -/
theorem read_ok_created_content (env : ReadEnv) (w : World)
    (hw : w.fs versionPath = none)
    (hok : (createBuildFolderAndVersionFile env w).2.2 = none) :
    (createBuildFolderAndVersionFile env w).1.fs versionPath = some (.file "0") := by
  have hv := (folderStage_outcome env w).2
  rw [createBuildFolderAndVersionFile_eq] at hok ⊢
  split at hok
  · simp at hok
  · rename_i hfe
    rw [if_neg hfe]
    split at hok
    · simp at hok
    · rename_i hve
      simp only [hve]
      simp only at hok
      rcases versionFileStage_cases env (folderStage env w).1 with ⟨h1, _⟩ | ⟨_, _, h1 | ⟨c, h1, h2⟩⟩
      · rw [h1] at hok ⊢
        unfold parseStage osReadFile at hok
        rw [hv, hw] at hok
        by_cases hr : env.readErr = true
        · simp [hr] at hok
        · simp [hr] at hok
      · rw [h1] at hve
        simp at hve
      · rw [h1, h2 hve]
        simp [World.put, FS.set]

theorem calls_append (t u : List Event) : calls (t ++ u) = calls t ++ calls u := by
  simp [calls]

theorem read_calls (env : ReadEnv) (w : World) :
    calls (createBuildFolderAndVersionFile env w).1.trace = calls w.trace := by
  obtain ⟨evs, ht, hev, _, _, _⟩ := read_outcome env w
  rw [ht, calls_append]
  have : calls evs = [] := by
    rcases hev with h | h | ⟨_, h | h⟩ <;> rw [h] <;> rfl
  rw [this, List.append_nil]

/-- Every error return of `createBuildFolderAndVersionFile` carries the version 0. -/
theorem read_error_version_zero (env : ReadEnv) (w : World)
    (h : (createBuildFolderAndVersionFile env w).2.2 ≠ none) :
    (createBuildFolderAndVersionFile env w).2.1 = 0 := by
  rw [createBuildFolderAndVersionFile_eq] at h ⊢
  split
  · rfl
  · split
    · rfl
    · rename_i hn
      simp only [hn] at h ⊢
      unfold parseStage parseContent at h ⊢
      split
      · rfl
      · split
        · rfl
        · rename_i hf _ _ _ hr _ _ hh
          simp [hf, hr, hh] at h

/-! ## The downloader and the loop -/

theorem put_calls (w : World) (path : String) (node : Node) (ev : Event)
    (h : ev.callArgs = none) : calls (w.put path node ev).trace = calls w.trace := by
  simp [World.put, calls, List.filterMap_append, h]

theorem osMkdirAll_calls (fault : Bool) (path : String) (w : World) :
    calls (osMkdirAll fault path w).1.trace = calls w.trace := by
  unfold osMkdirAll
  split
  · rfl
  · split
    · rfl
    · rfl
    · exact put_calls _ _ _ _ rfl

theorem osCreate_calls (fault : Bool) (path : String) (w : World) :
    calls (osCreate fault path w).1.trace = calls w.trace := by
  unfold osCreate
  split
  · rfl
  · split
    · rfl
    · exact put_calls _ _ _ _ rfl

theorem fileWrite_calls (fault : Option Nat) (path data : String) (w : World) :
    calls (fileWrite fault path data w).1.trace = calls w.trace := by
  unfold fileWrite
  split
  · split <;> exact put_calls _ _ _ _ rfl
  · rfl

theorem osWriteFile_calls (env : WriteFileEnv) (path data : String) (w : World) :
    calls (osWriteFile env path data w).1.trace = calls w.trace := by
  unfold osWriteFile
  simp only
  split
  · exact osCreate_calls _ _ _
  · rw [fileWrite_calls, osCreate_calls]

theorem downloadLatestBuild_calls (env : DownloadEnv) (url fileName : String) (w : World) :
    calls (downloadLatestBuild env url fileName w).1.trace = calls w.trace ++ [(url, fileName)] := by
  have h0 : calls (w.trace ++ [Event.call url fileName]) = calls w.trace ++ [(url, fileName)] := by
    simp [calls, List.filterMap_append, Event.callArgs]
  unfold downloadLatestBuild
  simp only
  split
  · rw [osMkdirAll_calls]; exact h0
  · split
    · rw [osMkdirAll_calls]; exact h0
    · split
      · rw [osCreate_calls, osMkdirAll_calls]; exact h0
      · split
        · rw [fileWrite_calls, osCreate_calls, osMkdirAll_calls]; exact h0
        · rw [fileWrite_calls, osCreate_calls, osMkdirAll_calls]; exact h0

theorem downloadAssets_calls (envs : Nat → DownloadEnv) (i : Nat) (assets : List Assets)
    (w : World) :
    calls (downloadAssets envs i assets w).trace =
      calls w.trace ++ assets.map (fun a => (a.Url, destName a.Name)) := by
  induction assets generalizing i w with
  | nil => simp [downloadAssets]
  | cons a rest ih =>
    unfold downloadAssets
    simp only
    rw [ih, downloadLatestBuild_calls]
    simp

theorem osWriteFile_content (env : WriteFileEnv) (path data : String) (w : World)
    (h : (osWriteFile env path data w).2 = false) :
    (osWriteFile env path data w).1.fs path = some (.file data) := by
  unfold osWriteFile osCreate fileWrite at h ⊢
  by_cases ho : env.openErr = true
  · simp [ho] at h
  · cases hf : w.fs path with
    | none =>
      cases hw : env.writeErr with
      | none => simp [ho, hf, hw, World.put, FS.set]
      | some k => simp [ho, hf, hw, World.put, FS.set] at h
    | some n =>
      cases n with
      | dir => simp [ho, hf] at h
      | file c =>
        cases hw : env.writeErr with
        | none => simp [ho, hf, hw, World.put, FS.set]
        | some k => simp [ho, hf, hw, World.put, FS.set] at h

/-- The shape of a run of `patcher` after a successful fetch. -/
theorem patcher_eq (env : Env) (w : World) (l : latestBuild)
    (hf : getLatestBuild env.fetch = some (l, none)) :
    patcher env w =
      if (createBuildFolderAndVersionFile env.read w).2.1 ≠ l.ID then
        some ((osWriteFile env.writeVersion versionPath (strconvItoa l.ID)
          (downloadAssets env.download 0 l.Assets
            (createBuildFolderAndVersionFile env.read w).1)).1, l, none)
      else some ((createBuildFolderAndVersionFile env.read w).1, l, none) := by
  unfold patcher
  rw [hf]
  rfl

/-! ## The sync procedure -/

/-- C4: when the release id differs from the current version, `patcher` calls the
downloader exactly once per asset, in the order of the asset list, with the asset's URL
and its classified destination name, whatever the outcome of each download (a failed
download neither ends the loop nor is repeated). -/
theorem patcher_downloads_each_asset_once (env : Env) (w : World) (l : latestBuild)
    (hf : getLatestBuild env.fetch = some (l, none))
    (hne : (createBuildFolderAndVersionFile env.read w).2.1 ≠ l.ID) :
    ∃ w2, patcher env w = some (w2, l, none) ∧
      calls w2.trace = calls w.trace ++ l.Assets.map (fun a => (a.Url, destName a.Name)) := by
  rw [patcher_eq env w l hf, if_pos hne]
  refine ⟨_, rfl, ?_⟩
  rw [osWriteFile_calls, downloadAssets_calls, read_calls]

/-- The scenario of C4: release 42 with the asset `bymr-stable-v2.swf`, local version 41,
every download failing: one invocation, with destination `bymr-stable.swf`. -/
theorem patcher_downloads_each_asset_once_witness :
    getLatestBuild (offlineEnv rel42).fetch = some (rel42, none) ∧
    (createBuildFolderAndVersionFile (offlineEnv rel42).read ⟨fsVersion "41", []⟩).2.1 ≠ rel42.ID ∧
    (rel42.Assets.map (fun a => (a.Url, destName a.Name)) = [("http://x/a", "bymr-stable.swf")]) ∧
    ∃ w2, patcher (offlineEnv rel42) ⟨fsVersion "41", []⟩ = some (w2, rel42, none) ∧
      calls w2.trace =
        calls [] ++ rel42.Assets.map (fun a => (a.Url, destName a.Name)) :=
  ⟨by decide, by decide, by decide,
    patcher_downloads_each_asset_once (offlineEnv rel42) ⟨fsVersion "41", []⟩ rel42
      (by decide) (by decide)⟩

/-- C5: when the release id differs from the current version and the final write of the
version file succeeds, then after `patcher` the whole content of the version file is the
decimal string of the release id, whatever the outcomes of the downloads. -/
theorem patcher_writes_release_id (env : Env) (w : World) (l : latestBuild)
    (hf : getLatestBuild env.fetch = some (l, none))
    (hne : (createBuildFolderAndVersionFile env.read w).2.1 ≠ l.ID)
    (hw : (osWriteFile env.writeVersion versionPath (strconvItoa l.ID)
      (downloadAssets env.download 0 l.Assets
        (createBuildFolderAndVersionFile env.read w).1)).2 = false) :
    ∃ w2, patcher env w = some (w2, l, none) ∧
      w2.fs versionPath = some (.file (strconvItoa l.ID)) := by
  rw [patcher_eq env w l hf, if_pos hne]
  exact ⟨_, rfl, osWriteFile_content _ _ _ _ hw⟩

/-- The scenario of C5: local `41`, release 42, the version file then holds `42`. -/
theorem patcher_writes_release_id_witness :
    strconvItoa rel42.ID = "42" ∧ versionPath = "bymr/version.txt" ∧
    (fsVersion "41") versionPath = some (.file "41") ∧
    ∃ w2, patcher (okEnv rel42) ⟨fsVersion "41", []⟩ = some (w2, rel42, none) ∧
      w2.fs versionPath = some (.file (strconvItoa rel42.ID)) :=
  ⟨by decide, by decide, by decide,
    patcher_writes_release_id (okEnv rel42) ⟨fsVersion "41", []⟩ rel42
      (by decide) (by decide) (by decide)⟩

/-- C6: `patcher` returns exactly the release and the error that `getLatestBuild`
returned: its error is non-nil if and only if the fetch failed, and after a successful
fetch it returns the fetched release with a nil error whatever happens while reading the
version, downloading, or writing the version file. -/
theorem patcher_error_iff_fetch_error (env : Env) (w : World) (l : latestBuild)
    (e : Option Error) (hf : getLatestBuild env.fetch = some (l, e)) :
    ∃ w2 e2, patcher env w = some (w2, l, e2) ∧ (e2 ≠ none ↔ e ≠ none) ∧
      (e = none → e2 = none) := by
  cases e with
  | some err =>
    refine ⟨w, some err, ?_, Iff.rfl, fun h => h⟩
    unfold patcher
    rw [hf]
  | none =>
    rw [patcher_eq env w l hf]
    split
    · exact ⟨_, none, rfl, Iff.rfl, fun h => h⟩
    · exact ⟨_, none, rfl, Iff.rfl, fun h => h⟩

/-- A failed fetch (status 404): `patcher` returns the fetch error. -/
theorem patcher_error_iff_fetch_error_witness :
    getLatestBuild notFoundEnv.fetch =
      some (⟨0, []⟩, some (.fetchStatus "404 Not Found")) ∧
    ∃ w2 e2, patcher notFoundEnv ⟨fsVersion "41", []⟩ = some (w2, ⟨0, []⟩, e2) ∧
      (e2 ≠ none ↔ some (Error.fetchStatus "404 Not Found") ≠ none) ∧
      (some (Error.fetchStatus "404 Not Found") = none → e2 = none) :=
  ⟨by decide,
    patcher_error_iff_fetch_error notFoundEnv ⟨fsVersion "41", []⟩ ⟨0, []⟩
      (some (.fetchStatus "404 Not Found")) (by decide)⟩

/-- C1, refuted as stated: with release id 0 and no version file, the current version
read is 0, equal to the release id, and the run has created `bymr/version.txt` with
content `0`, a write that is not the creation of the build directory. -/
theorem patcher_up_to_date_creates_version_file :
    getLatestBuild (okEnv rel0).fetch = some (rel0, none) ∧
    (createBuildFolderAndVersionFile (okEnv rel0).read ⟨fsEmpty, []⟩).2.1 = rel0.ID ∧
    fsEmpty "bymr/version.txt" = none ∧
    (patcher (okEnv rel0) ⟨fsEmpty, []⟩).map
        (fun r => (r.1.trace, r.1.fs "bymr/version.txt", r.2)) =
      some ([Event.mkdir "bymr", Event.create "bymr/version.txt", Event.write "bymr/version.txt"],
        some (Node.file "0"), rel0, none) := by
  decide

/-- C1, amended: when the current version read equals the release id, `patcher` returns
the fetched release with a nil error, and its only writes are those of reading the
version: making the build directory and, only when the version file did not exist,
creating the version file and writing its default content `0` to it once.  A version
file that was absent is afterwards absent, empty (the write failed) or holds `0`, and
holds exactly `0` when the read reported no error.  The downloader is not invoked, an
existing version file keeps its content, and every other path is untouched. -/
theorem patcher_up_to_date_frame (env : Env) (w : World) (l : latestBuild)
    (hf : getLatestBuild env.fetch = some (l, none))
    (heq : (createBuildFolderAndVersionFile env.read w).2.1 = l.ID) :
    ∃ w2 evs, patcher env w = some (w2, l, none) ∧ w2.trace = w.trace ++ evs ∧
      (evs = [] ∨ evs = [Event.mkdir buildFolder] ∨
        (w.fs versionPath = none ∧
          (evs = [Event.create versionPath, Event.write versionPath] ∨
            evs = [Event.mkdir buildFolder, Event.create versionPath,
              Event.write versionPath]))) ∧
      (∀ q, q ≠ buildFolder → q ≠ versionPath → w2.fs q = w.fs q) ∧
      ((w.fs versionPath).isSome = true → w2.fs versionPath = w.fs versionPath) ∧
      (w.fs versionPath = none →
        w2.fs versionPath = none ∨ w2.fs versionPath = some (.file "") ∨
          w2.fs versionPath = some (.file "0")) ∧
      (w.fs versionPath = none → (createBuildFolderAndVersionFile env.read w).2.2 = none →
        w2.fs versionPath = some (.file "0")) ∧
      calls w2.trace = calls w.trace := by
  rw [patcher_eq env w l hf, if_neg (by simpa using heq)]
  obtain ⟨evs, h1, h2, h3, h4, h5⟩ := read_outcome env.read w
  exact ⟨_, evs, rfl, h1, h2, h3, h4, h5,
    fun hw hok => read_ok_created_content env.read w hw hok, read_calls _ _⟩

/-- Two runs for C1, each with a release that has one asset.  Release 0 in an empty
working directory: the version read is 0, the folder and the version file holding `0`
are made, nothing is downloaded.  Release 7 over a version file holding `7`: nothing is
written at all. -/
theorem patcher_up_to_date_frame_witness :
    (getLatestBuild (okEnv rel0).fetch = some (rel0, none) ∧
      (createBuildFolderAndVersionFile (okEnv rel0).read ⟨fsEmpty, []⟩).2 = (rel0.ID, none) ∧
      fsEmpty versionPath = none ∧
      (patcher (okEnv rel0) ⟨fsEmpty, []⟩).map
          (fun r => (r.1.trace, r.1.fs versionPath, r.1.fs "bymr/bymr-stable.swf")) =
        some ([Event.mkdir buildFolder, Event.create versionPath, Event.write versionPath],
          some (Node.file "0"), none)) ∧
    (getLatestBuild (okEnv rel7asset).fetch = some (rel7asset, none) ∧
      (createBuildFolderAndVersionFile (okEnv rel7asset).read ⟨fsVersion "7", []⟩).2 =
        (rel7asset.ID, none) ∧
      (patcher (okEnv rel7asset) ⟨fsVersion "7", []⟩).map
          (fun r => (r.1.trace, r.1.fs versionPath, r.1.fs "bymr/bymr-stable.swf")) =
        some ([], some (Node.file "7"), none)) ∧
    (∃ w2 evs, patcher (okEnv rel0) ⟨fsEmpty, []⟩ = some (w2, rel0, none) ∧
      w2.trace = [] ++ evs ∧
      (evs = [] ∨ evs = [Event.mkdir buildFolder] ∨
        (fsEmpty versionPath = none ∧
          (evs = [Event.create versionPath, Event.write versionPath] ∨
            evs = [Event.mkdir buildFolder, Event.create versionPath,
              Event.write versionPath]))) ∧
      (∀ q, q ≠ buildFolder → q ≠ versionPath → w2.fs q = fsEmpty q) ∧
      ((fsEmpty versionPath).isSome = true → w2.fs versionPath = fsEmpty versionPath) ∧
      (fsEmpty versionPath = none →
        w2.fs versionPath = none ∨ w2.fs versionPath = some (.file "") ∨
          w2.fs versionPath = some (.file "0")) ∧
      (fsEmpty versionPath = none →
        (createBuildFolderAndVersionFile (okEnv rel0).read ⟨fsEmpty, []⟩).2.2 = none →
        w2.fs versionPath = some (.file "0")) ∧
      calls w2.trace = calls []) ∧
    (∃ w2 evs, patcher (okEnv rel7asset) ⟨fsVersion "7", []⟩ = some (w2, rel7asset, none) ∧
      w2.trace = [] ++ evs ∧
      (evs = [] ∨ evs = [Event.mkdir buildFolder] ∨
        (fsVersion "7" versionPath = none ∧
          (evs = [Event.create versionPath, Event.write versionPath] ∨
            evs = [Event.mkdir buildFolder, Event.create versionPath,
              Event.write versionPath]))) ∧
      (∀ q, q ≠ buildFolder → q ≠ versionPath → w2.fs q = fsVersion "7" q) ∧
      ((fsVersion "7" versionPath).isSome = true →
        w2.fs versionPath = fsVersion "7" versionPath) ∧
      (fsVersion "7" versionPath = none →
        w2.fs versionPath = none ∨ w2.fs versionPath = some (.file "") ∨
          w2.fs versionPath = some (.file "0")) ∧
      (fsVersion "7" versionPath = none →
        (createBuildFolderAndVersionFile (okEnv rel7asset).read ⟨fsVersion "7", []⟩).2.2 =
          none →
        w2.fs versionPath = some (.file "0")) ∧
      calls w2.trace = calls []) :=
  ⟨by decide, by decide,
    patcher_up_to_date_frame (okEnv rel0) ⟨fsEmpty, []⟩ rel0 (by decide) (by decide),
    patcher_up_to_date_frame (okEnv rel7asset) ⟨fsVersion "7", []⟩ rel7asset
      (by decide) (by decide)⟩

/-- C10: when reading the version fails, `patcher` drops the error and goes on with
current version 0.  If the release id is not 0 it calls the downloader for every asset in
order and then writes the decimal release id to the version file (which holds exactly
that when the write succeeds); if the release id is 0 it stops after the read and
downloads nothing.  In both cases it returns the release with a nil error. -/
theorem patcher_read_error_as_version_zero (env : Env) (w : World) (l : latestBuild)
    (hf : getLatestBuild env.fetch = some (l, none))
    (hr : (createBuildFolderAndVersionFile env.read w).2.2 ≠ none) :
    (createBuildFolderAndVersionFile env.read w).2.1 = 0 ∧
    (l.ID ≠ 0 →
      patcher env w =
        some ((osWriteFile env.writeVersion versionPath (strconvItoa l.ID)
          (downloadAssets env.download 0 l.Assets
            (createBuildFolderAndVersionFile env.read w).1)).1, l, none) ∧
      calls (osWriteFile env.writeVersion versionPath (strconvItoa l.ID)
          (downloadAssets env.download 0 l.Assets
            (createBuildFolderAndVersionFile env.read w).1)).1.trace =
        calls w.trace ++ l.Assets.map (fun a => (a.Url, destName a.Name)) ∧
      ((osWriteFile env.writeVersion versionPath (strconvItoa l.ID)
          (downloadAssets env.download 0 l.Assets
            (createBuildFolderAndVersionFile env.read w).1)).2 = false →
        (osWriteFile env.writeVersion versionPath (strconvItoa l.ID)
          (downloadAssets env.download 0 l.Assets
            (createBuildFolderAndVersionFile env.read w).1)).1.fs versionPath =
          some (.file (strconvItoa l.ID)))) ∧
    (l.ID = 0 →
      patcher env w = some ((createBuildFolderAndVersionFile env.read w).1, l, none) ∧
      calls (createBuildFolderAndVersionFile env.read w).1.trace = calls w.trace) := by
  have h0 := read_error_version_zero env.read w hr
  refine ⟨h0, ?_, ?_⟩
  · intro hid
    refine ⟨?_, ?_, fun hw => osWriteFile_content _ _ _ _ hw⟩
    · rw [patcher_eq env w l hf, h0, if_pos (fun h => hid h.symm)]
    · rw [osWriteFile_calls, downloadAssets_calls, read_calls]
  · intro hid
    refine ⟨?_, read_calls _ _⟩
    rw [patcher_eq env w l hf, h0, if_neg (by simp [hid])]

/-- A version file holding `abc` with release 42: the read fails, the asset is
downloaded and the version file is overwritten. -/
theorem patcher_read_error_as_version_zero_witness :
    getLatestBuild (okEnv rel42).fetch = some (rel42, none) ∧
    (createBuildFolderAndVersionFile (okEnv rel42).read ⟨fsVersion "abc", []⟩).2.2 =
      some (.parseVersion .invalid) ∧
    (patcher (okEnv rel42) ⟨fsVersion "abc", []⟩).map
        (fun r => (calls r.1.trace, r.1.fs "bymr/version.txt", r.2)) =
      some ([("http://x/a", "bymr-stable.swf")], some (Node.file "42"), rel42, none) ∧
    (createBuildFolderAndVersionFile (okEnv rel42).read ⟨fsVersion "abc", []⟩).2.1 = 0 :=
  ⟨by decide, by decide, by decide,
    (patcher_read_error_as_version_zero (okEnv rel42) ⟨fsVersion "abc", []⟩ rel42
      (by decide) (by decide)).1⟩

/-! ## What `strconv.Atoi` accepts -/

theorem atoiFastLoop_all_digits (s : List Char) (n m : Nat) (h : atoiFastLoop s n = some m) :
    s.all isDigit = true := by
  induction s generalizing n with
  | nil => rfl
  | cons c t ih =>
    unfold atoiFastLoop at h
    by_cases hc : isDigit c = true
    · rw [if_pos hc] at h
      simp [hc, ih _ h]
    · rw [if_neg hc] at h
      simp at h

theorem parseUintLoop_all_digits (s : List Char) (n : Nat) (h : (parseUintLoop s n).2 = none) :
    s.all isDigit = true := by
  induction s generalizing n with
  | nil => rfl
  | cons c t ih =>
    unfold parseUintLoop at h
    by_cases hc : isDigit c = true
    · rw [if_pos hc] at h
      split at h
      · simp at h
      · simp only at h
        split at h
        · simp at h
        · simp [hc, ih _ h]
    · rw [if_neg hc] at h
      simp at h

theorem parseUintLoop_range (s : List Char) (n : Nat)
    (h : (parseUintLoop s n).2 = some NumError.range) : (parseUintLoop s n).1 = 2 ^ 64 - 1 := by
  induction s generalizing n with
  | nil => simp [parseUintLoop] at h
  | cons c t ih =>
    unfold parseUintLoop at h ⊢
    by_cases hc : isDigit c = true
    · rw [if_pos hc] at h ⊢
      split
      · rfl
      · rename_i hcut
        rw [if_neg hcut] at h
        simp only at h ⊢
        split
        · rfl
        · rename_i hov
          rw [if_neg hov] at h
          exact ih _ h
    · rw [if_neg hc] at h
      simp at h

theorem parseInt_ok_all_digits (c : Char) (t : List Char)
    (h : (parseInt (c :: t)).2 = none) :
    (if c == '+' || c == '-' then t else c :: t) ≠ [] ∧
      (if c == '+' || c == '-' then t else c :: t).all isDigit = true := by
  unfold parseInt parseUint at h
  simp only at h
  generalize (if c == '+' || c == '-' then t else c :: t) = s1 at h ⊢
  cases s1 with
  | nil => simp at h
  | cons d u =>
    refine ⟨by simp, ?_⟩
    simp only [List.isEmpty_cons, Bool.false_eq_true, if_false] at h
    cases he : (parseUintLoop (d :: u) 0).2 with
    | none => exact parseUintLoop_all_digits _ _ he
    | some e =>
      cases e with
      | invalid => simp [he] at h
      | range =>
        have hv := parseUintLoop_range _ _ he
        rw [he, hv] at h
        by_cases hneg : (c == '-') = true
        · simp [hneg] at h
        · simp [hneg] at h

/-- Whatever `strconv.Atoi` parses without error is a decimal integer. -/
theorem strconvAtoi_ok_isDecimalInteger (s : String) (h : (strconvAtoi s).2 = none) :
    isDecimalInteger s = true := by
  unfold strconvAtoi at h
  unfold isDecimalInteger
  simp only at h
  cases hd : s.data with
  | nil =>
    rw [hd] at h
    split at h
    · simp at h
    · simp [parseInt] at h
  | cons c t =>
    rw [hd] at h
    simp only
    split at h
    · simp only [Bool.or_comm (c == '-') (c == '+')] at h
      generalize (if c == '+' || c == '-' then t else c :: t) = s1 at h ⊢
      cases s1 with
      | nil => simp at h
      | cons d u =>
        simp only [List.isEmpty_cons, Bool.false_eq_true, if_false] at h
        cases hl : atoiFastLoop (d :: u) 0 with
        | none => rw [hl] at h; simp at h
        | some m =>
          have := atoiFastLoop_all_digits _ _ _ hl
          simp [this]
    · obtain ⟨h1, h2⟩ := parseInt_ok_all_digits c t h
      rw [h2]
      cases hs : (if c == '+' || c == '-' then t else c :: t) with
      | nil => exact absurd hs h1
      | cons d u => rfl

theorem parseInt_nonneg (c : Char) (t : List Char) (v : Int) (hc : (c == '-') = false)
    (h : parseInt (c :: t) = (v, none)) : 0 ≤ v := by
  unfold parseInt at h
  simp only [hc] at h
  generalize parseUint (if (c == '+' || false) = true then t else c :: t) = p at h
  obtain ⟨un, err⟩ := p
  simp only [Bool.not_false, Bool.true_and, Bool.false_and, Bool.false_eq_true, if_false,
    decide_eq_true_eq] at h
  split_ifs at h with h1 h2
  · simp only [Prod.mk.injEq] at h
    rw [← h.1]
  · simp at h
  · simp only [Prod.mk.injEq, and_true] at h
    rw [← h]
    unfold wrapInt64
    have h3 : un < 2 ^ 63 := by omega
    have h4 : (un : Int) < 2 ^ 63 := by exact_mod_cast h3
    omega

/-- A version parsed without error is negative only if the text starts with `-`. -/
theorem strconvAtoi_nonneg (s : String) (v : Int) (h : strconvAtoi s = (v, none))
    (hm : s.data.head? ≠ some '-') : 0 ≤ v := by
  unfold strconvAtoi at h
  simp only at h
  cases hd : s.data with
  | nil =>
    rw [hd] at h
    split at h
    · simp at h
    · simp [parseInt] at h
  | cons c t =>
    rw [hd] at h hm
    have hc : (c == '-') = false := by
      rw [beq_eq_false_iff_ne]
      intro hc
      exact hm (by simp [hc])
    split_ifs at h with h1
    · simp only [hc, Bool.false_eq_true, if_false] at h
      generalize (if (false || c == '+') = true then t else c :: t) = s1 at h
      cases hl : atoiFastLoop s1 0 with
      | none =>
        rw [hl] at h
        split_ifs at h <;> simp at h
      | some m =>
        rw [hl] at h
        split_ifs at h
        · simp at h
        · simp only [Prod.mk.injEq, and_true] at h
          rw [← h]
          exact Int.natCast_nonneg _
    · exact parseInt_nonneg c t v hc h

/-! ## Reading an existing version file -/

theorem folderStage_existing (env : ReadEnv) (w : World) (hd : (w.fs buildFolder).isSome = true) :
    folderStage env w = (w, false) := by
  unfold folderStage osStat
  by_cases h1 : env.statFolderErr = true
  · simp [h1]
  · simp [h1, hd]

theorem versionFileStage_existing (env : ReadEnv) (w : World)
    (hf : (w.fs versionPath).isSome = true) : versionFileStage env w = (w, none) := by
  rcases versionFileStage_cases env w with ⟨h, _⟩ | ⟨hnone, _⟩
  · exact h
  · rw [hnone] at hf
    simp at hf

theorem parseStage_file (env : ReadEnv) (w : World) (content : String)
    (hf : w.fs versionPath = some (.file content)) :
    parseStage env w = if env.readErr = true then (0, some .readVersionFile)
      else parseContent content := by
  unfold parseStage osReadFile
  by_cases h : env.readErr = true
  · simp [h]
  · simp [h, hf]

/-- Reading when the version file exists: the folder cannot be made, or the file
cannot be read, or the content is parsed. -/
theorem read_existing (env : ReadEnv) (w : World) (content : String)
    (hf : w.fs versionPath = some (.file content)) :
    (createBuildFolderAndVersionFile env w).2 = (0, some .createFolder) ∨
      (createBuildFolderAndVersionFile env w).2 =
        (if env.readErr = true then (0, some .readVersionFile) else parseContent content) := by
  rw [createBuildFolderAndVersionFile_eq]
  split
  · left; rfl
  · right
    have hv := (folderStage_outcome env w).2
    have hf1 : (folderStage env w).1.fs versionPath = some (.file content) := by rw [hv, hf]
    rw [versionFileStage_existing env _ (by rw [hf1]; rfl)]
    simp only
    exact parseStage_file env _ content hf1

theorem read_existing_folder (env : ReadEnv) (w : World) (content : String)
    (hd : (w.fs buildFolder).isSome = true) (hf : w.fs versionPath = some (.file content)) :
    createBuildFolderAndVersionFile env w =
      (w, if env.readErr = true then (0, some .readVersionFile) else parseContent content) := by
  rw [createBuildFolderAndVersionFile_eq, folderStage_existing env w hd]
  simp only [Bool.false_eq_true, if_false]
  rw [versionFileStage_existing env w (by rw [hf]; rfl)]
  simp only
  rw [parseStage_file env w content hf]

theorem osWriteFile_frame (env : WriteFileEnv) (path data : String) (w : World) (q : String)
    (hq : q ≠ path) : (osWriteFile env path data w).1.fs q = w.fs q := by
  unfold osWriteFile osCreate fileWrite
  by_cases ho : env.openErr = true
  · simp [ho]
  · cases hf : w.fs path with
    | none =>
      cases hw : env.writeErr with
      | none => simp [ho, hf, hw, World.put, FS.set, hq]
      | some k => simp [ho, hf, hw, World.put, FS.set, hq]
    | some n =>
      cases n with
      | dir => simp [ho, hf]
      | file c =>
        cases hw : env.writeErr with
        | none => simp [ho, hf, hw, World.put, FS.set, hq]
        | some k => simp [ho, hf, hw, World.put, FS.set, hq]

theorem parseContent_strconvItoa (N : Int) (h0 : 0 ≤ N) (h1 : N < 2 ^ 63) :
    parseContent (strconvItoa N) = (N, none) := by
  unfold parseContent
  rw [strconvAtoi_strconvItoa N h0 h1]

/-! ## The local version store -/

/-- C3: for a non-negative `N` in the range of `int`, after the version file has been
written the way `patcher` does it (`os.WriteFile` with `strconv.Itoa(N)` as the whole
content), `createBuildFolderAndVersionFile` returns exactly `N` and no error, provided
the read itself does not fail. -/
theorem version_write_read_roundtrip (N : Int) (h0 : 0 ≤ N) (h1 : N < 2 ^ 63)
    (wenv : WriteFileEnv) (renv : ReadEnv) (w : World)
    (hd : w.fs buildFolder = some .dir)
    (hw : (osWriteFile wenv versionPath (strconvItoa N) w).2 = false)
    (hr : renv.readErr = false) :
    (createBuildFolderAndVersionFile renv
      (osWriteFile wenv versionPath (strconvItoa N) w).1).2 = (N, none) := by
  have hfile := osWriteFile_content wenv versionPath (strconvItoa N) w hw
  have hdir := osWriteFile_frame wenv versionPath (strconvItoa N) w buildFolder
    (fun h => versionPath_ne_buildFolder h.symm)
  rw [read_existing_folder renv _ (strconvItoa N) (by rw [hdir, hd]; rfl) hfile]
  simp only [hr, Bool.false_eq_true, if_false]
  exact parseContent_strconvItoa N h0 h1

/-- Writing 42 over a version file holding `41` and reading it back gives 42. -/
theorem version_write_read_roundtrip_witness :
    (0 : Int) ≤ 42 ∧ (42 : Int) < 2 ^ 63 ∧
    (osWriteFile okWrite versionPath (strconvItoa 42) ⟨fsVersion "41", []⟩).1.fs versionPath =
      some (.file "42") ∧
    (createBuildFolderAndVersionFile okRead
      (osWriteFile okWrite versionPath (strconvItoa 42) ⟨fsVersion "41", []⟩).1).2 =
        (42, none) :=
  ⟨by decide, by decide, by decide,
    version_write_read_roundtrip 42 (by decide) (by decide) okWrite okRead
      ⟨fsVersion "41", []⟩ (by decide) (by decide) (by decide)⟩

/-- C7: when the content of the version file is not a decimal integer,
`createBuildFolderAndVersionFile` never reports a successful read: it returns version 0
together with a non-nil error, and that error is the parse error whenever the build
folder exists and the file can be read. -/
theorem non_decimal_version_is_error (env : ReadEnv) (w : World) (content : String)
    (hf : w.fs versionPath = some (.file content))
    (hnd : isDecimalInteger content = false) :
    (createBuildFolderAndVersionFile env w).2.1 = 0 ∧
    (createBuildFolderAndVersionFile env w).2.2 ≠ none ∧
    ((w.fs buildFolder).isSome = true → env.readErr = false →
      ∃ e, (createBuildFolderAndVersionFile env w).2 = (0, some (.parseVersion e))) := by
  have hp : ∃ e, parseContent content = (0, some (.parseVersion e)) := by
    unfold parseContent
    split
    · exact ⟨_, rfl⟩
    · rename_i v hv
      have := strconvAtoi_ok_isDecimalInteger content (by rw [hv])
      rw [this] at hnd
      exact absurd hnd (by simp)
  obtain ⟨e, he⟩ := hp
  have herr : (createBuildFolderAndVersionFile env w).2.2 ≠ none := by
    rcases read_existing env w content hf with h | h
    · rw [h]; simp
    · rw [h]
      split
      · simp
      · rw [he]; simp
  refine ⟨read_error_version_zero env w herr, herr, ?_⟩
  intro hd hr
  refine ⟨e, ?_⟩
  rw [read_existing_folder env w content hd hf]
  simp only [hr, Bool.false_eq_true, if_false]
  exact he

/-- The contents `abc`, the empty file and `42` followed by a newline are rejected. -/
theorem non_decimal_version_is_error_witness :
    (isDecimalInteger "abc" = false ∧ isDecimalInteger "" = false ∧
      isDecimalInteger "42\n" = false) ∧
    (createBuildFolderAndVersionFile okRead ⟨fsVersion "", []⟩).2 =
      (0, some (.parseVersion .invalid)) ∧
    (createBuildFolderAndVersionFile okRead ⟨fsVersion "42\n", []⟩).2 =
      (0, some (.parseVersion .invalid)) ∧
    (createBuildFolderAndVersionFile okRead ⟨fsVersion "abc", []⟩).2.1 = 0 ∧
    (createBuildFolderAndVersionFile okRead ⟨fsVersion "abc", []⟩).2.2 ≠ none ∧
    (((fsVersion "abc") buildFolder).isSome = true → okRead.readErr = false →
      ∃ e, (createBuildFolderAndVersionFile okRead ⟨fsVersion "abc", []⟩).2 =
        (0, some (.parseVersion e))) :=
  ⟨by decide, by decide, by decide,
    non_decimal_version_is_error okRead ⟨fsVersion "abc", []⟩ "abc" (by decide) (by decide)⟩

theorem read_ok_stages (env : ReadEnv) (w : World) (v : Int)
    (h : (createBuildFolderAndVersionFile env w).2 = (v, none)) :
    (versionFileStage env (folderStage env w).1).2 = none ∧
      (createBuildFolderAndVersionFile env w).1 = (versionFileStage env (folderStage env w).1).1 ∧
      parseStage env (versionFileStage env (folderStage env w).1).1 = (v, none) := by
  rw [createBuildFolderAndVersionFile_eq] at h ⊢
  split at h
  · simp at h
  · rename_i hfe
    rw [if_neg hfe]
    split at h
    · simp at h
    · rename_i hve
      simp only [hve]
      exact ⟨trivial, trivial, h⟩

theorem parseStage_ok (env : ReadEnv) (w2 : World) (v : Int)
    (h : parseStage env w2 = (v, none)) :
    ∃ content, w2.fs versionPath = some (.file content) ∧ strconvAtoi content = (v, none) := by
  unfold parseStage osReadFile at h
  by_cases hr : env.readErr = true
  · simp [hr] at h
  · simp only [hr, Bool.false_eq_true, if_false] at h
    cases hf : w2.fs versionPath with
    | none => simp [hf] at h
    | some n =>
      cases n with
      | dir => simp [hf] at h
      | file content =>
        refine ⟨content, rfl, ?_⟩
        simp only [hf] at h
        unfold parseContent at h
        split at h
        · simp at h
        · rename_i v2 hv
          simp only [Prod.mk.injEq, and_true] at h
          rw [hv, h]

/-- C8, refuted as stated: a version file holding `-5` is read without error as the
negative version -5. -/
theorem negative_version_read_without_error :
    (createBuildFolderAndVersionFile okRead ⟨fsVersion "-5", []⟩).2 = (-5, none) ∧
    ¬ (0 : Int) ≤ (createBuildFolderAndVersionFile okRead ⟨fsVersion "-5", []⟩).2.1 := by
  decide

/-- C8, amended: whenever `createBuildFolderAndVersionFile` returns without error, the
version file then holds a text that `strconv.Atoi` parses to the returned version; the
version is non-negative unless that text starts with a minus sign, and it is 0 when the
file did not exist and had to be created. -/
theorem version_nonneg_unless_minus (env : ReadEnv) (w : World) (v : Int)
    (h : (createBuildFolderAndVersionFile env w).2 = (v, none)) :
    ∃ content, (createBuildFolderAndVersionFile env w).1.fs versionPath = some (.file content) ∧
      strconvAtoi content = (v, none) ∧
      (content.data.head? ≠ some '-' → 0 ≤ v) ∧
      (fileExists env.statVersionErr versionPath w = false → v = 0) := by
  obtain ⟨hve, hw2, hps⟩ := read_ok_stages env w v h
  obtain ⟨content, hc, ha⟩ := parseStage_ok env _ v hps
  refine ⟨content, by rw [hw2]; exact hc, ha, strconvAtoi_nonneg content v ha, ?_⟩
  intro hfe
  have hv := (folderStage_outcome env w).2
  have hfe2 : env.statVersionErr = false ∧ w.fs versionPath = none := by
    unfold fileExists osStat at hfe
    by_cases h1 : env.statVersionErr = true
    · simp [h1] at hfe
    · cases hf : w.fs versionPath with
      | none => exact ⟨by simpa using h1, rfl⟩
      | some n => simp [h1, hf] at hfe
  rcases versionFileStage_cases env (folderStage env w).1 with ⟨_, h1 | h1⟩ | ⟨_, _, h1 | ⟨c, h1, h2⟩⟩
  · rw [hfe2.1] at h1
    simp at h1
  · rw [hv, hfe2.2] at h1
    simp at h1
  · rw [h1] at hve
    simp at hve
  · have hc0 := h2 hve
    rw [h1, hc0] at hc
    simp only [World.put, FS.set, if_true, Option.some.injEq, Node.file.injEq] at hc
    rw [← hc] at ha
    have h0 : strconvAtoi "0" = (0, none) := by decide
    rw [h0] at ha
    simp only [Prod.mk.injEq, and_true] at ha
    exact ha.symm

/-- A fresh directory: the version file is created and version 0 is read. -/
theorem version_nonneg_unless_minus_witness :
    (createBuildFolderAndVersionFile okRead ⟨fsEmpty, []⟩).2 = (0, none) ∧
    fileExists okRead.statVersionErr versionPath ⟨fsEmpty, []⟩ = false ∧
    ∃ content,
      (createBuildFolderAndVersionFile okRead ⟨fsEmpty, []⟩).1.fs versionPath =
        some (.file content) ∧
      strconvAtoi content = (0, none) ∧
      (content.data.head? ≠ some '-' → (0 : Int) ≤ 0) ∧
      (fileExists okRead.statVersionErr versionPath ⟨fsEmpty, []⟩ = false → (0 : Int) = 0) :=
  ⟨by decide, by decide,
    version_nonneg_unless_minus okRead ⟨fsEmpty, []⟩ 0 (by decide)⟩

/-! ## The destination path -/

/-- C9, evaluated at the failing input: the asset name `../evil.swf` matches no keyword
and is kept as destination name; `filepath.Join` resolves it against the build folder to
`evil.swf`, and the run creates and writes that file next to the build folder, not
inside it. -/
theorem asset_name_escapes_build_folder :
    destName "../evil.swf" = "../evil.swf" ∧
    filepathJoin buildFolder "../evil.swf" = "evil.swf" ∧
    stringsContains (filepathJoin buildFolder "../evil.swf") "bymr" = false ∧
    (patcher (okEnv relDotDot) ⟨fsVersion "41", []⟩).map
        (fun r => (r.1.trace, r.1.fs "evil.swf", r.1.fs "bymr/evil.swf", r.2)) =
      some ([Event.call "http://x/a" "../evil.swf", Event.create "evil.swf",
          Event.write "evil.swf", Event.create "bymr/version.txt",
          Event.write "bymr/version.txt"],
        some (Node.file "SWF"), none, relDotDot, none) := by
  decide

end Patcher
